import Mathlib

/-!
Verification of the GrundfosCU300 GENIBus protocol client.

This file gives a shallow embedding of the protocol core of the repository
(`genibus/apdu.py`, `genibus/protocol.py`, `genibus/exceptions.py`) and proves
the claims of the specification against it.

Frames and byte buffers are modelled as `List Nat` (each entry one byte,
< 256 for well-formed data).  Fallible Python code (KeyError on catalog
lookup, exceptions in the engine) is modelled with `Option` / `Except`.

The repository modules `genibus/gbdefs.py`, `genibus/utils/crc.py` and
`genibus/devices/db.py` are imported by the sources but are not part of the
source tree given here; definitions taken from them are modelled from the
specification and are marked `Modelled from the spec:` in their doc comment.
The checksum algorithm is pinned bit-for-bit by the known-good byte sequence
`27 0e fe 01 00 02 02 03 04 02 2e 2f 02 02 94 95 a2 aa` that the spec
requires the codec to reproduce.
-/

/-! ## gbdefs: protocol constants -/

/-- Modelled from the spec: `gbdefs.FrameType.SD_DATA_REQUEST`, the request
start delimiter; the spec fixes it to `0x27`. -/
def SD_DATA_REQUEST : Nat := 0x27

/-- Modelled from the spec: `gbdefs.FrameType.SD_DATA_REPLY`, one of the two
"other protocol-defined reply/message values" of the spec (the GENIBus reply
delimiter). -/
def SD_DATA_REPLY : Nat := 0x24

/-- Modelled from the spec: `gbdefs.FrameType.SD_DATA_MESSAGE`, the GENIBus
message start delimiter. -/
def SD_DATA_MESSAGE : Nat := 0x26

/-- Modelled from the spec: `gbdefs.CONNECTION_REQ_ADDR`, the fixed connect
request destination address; the spec's known-good connect request fixes it
to `0xfe`. -/
def CONNECTION_REQ_ADDR : Nat := 0xfe

/-- Modelled from the spec: `gbdefs.MAX_PDU_LEN`, the maximum declared frame
length accepted by the receiver ("max bounded by a protocol constant
(historically 255 or less)"). -/
def MAX_PDU_LEN : Nat := 255

/-- Modelled from the spec: the `gbdefs.APDUClass` byte values, pinned by the
payload blocks of the spec's known-good connect request
(`00 .. / 04 .. / 02 ..`) and by the GENIBus class numbering. -/
def PROTOCOL_DATA : Nat := 0
def MEASURED_DATA : Nat := 2
def COMMANDS : Nat := 3
def CONFIGURATION_PARAMETERS : Nat := 4
def REFERENCE_VALUES : Nat := 5
def ASCII_STRINGS : Nat := 7

/-- Modelled from the spec: the `gbdefs.Operation` codes, pinned by the
header bytes of the known-good frames (`0x02 = (GET<<6)|2`,
`0x81 = (SET<<6)|1`). -/
def OP_GET : Nat := 0
def OP_SET : Nat := 2
def OP_INFO : Nat := 3

/-! ## utils/crc: the checksum module

`genibus/utils/crc.py` is not under `src/`.  Modelled from the spec: the
checksum is a byte-wise rolling 16-bit computation over the frame content
after the start delimiter, and must reproduce the spec's known-good trailer
`a2 aa` bit-for-bit.  The unique standard algorithm doing so is the CCITT
polynomial `0x1021` with start value `0xFFFF`, final complement, high byte
emitted first. -/

/-- One shift-and-reduce step of the rolling checksum on a 16-bit state. -/
def crcStep (c : Nat) : Nat :=
  ((c <<< 1) % 65536) ^^^ (if c.testBit 15 then 0x1021 else 0)

/-- `crcStepN k c` applies `crcStep` `k` times. -/
def crcStepN : Nat → Nat → Nat
  | 0, c => c
  | k + 1, c => crcStepN k (crcStep c)

/-- Feed one byte into the rolling checksum state. -/
def crcByte (c b : Nat) : Nat :=
  crcStepN 8 (c ^^^ (b <<< 8))

/-- Run the rolling checksum over a byte list from state `c`. -/
def crcFold (c : Nat) (bs : List Nat) : Nat :=
  bs.foldl crcByte c

/-- Modelled from the spec: `crc.calcuateCrc`-style checksum of the bytes of
a frame after the start delimiter (start value `0xFFFF`, complemented). -/
def calcCrc (bs : List Nat) : Nat :=
  crcFold 0xFFFF bs ^^^ 0xFFFF

/-- The byte span the stored checksum of a framed buffer is computed over:
everything after the start delimiter and before the two trailer bytes. -/
def crcSpan (f : List Nat) : List Nat :=
  (f.take (f.length - 2)).drop 1

/-- The two trailer bytes of a framed buffer read as a 16-bit value
(high byte first). -/
def storedCrc (f : List Nat) : Nat :=
  256 * f.getD (f.length - 2) 0 + f.getD (f.length - 1) 0

/-- Modelled from the spec: `crc.check_tel(buf, silent=True)` — verify the
trailer of a framed buffer against the checksum of its span; a mismatch is a
negative result, never an exception (the `silent` flag only suppresses
logging and is dropped here). -/
def check_tel (f : List Nat) : Bool :=
  decide (4 ≤ f.length) && (calcCrc (crcSpan f) == storedCrc f)

/-- Modelled from the spec: `crc.append_tel(buf)` — append the two checksum
bytes (high byte first) computed over everything after the start
delimiter. -/
def append_tel (f : List Nat) : List Nat :=
  f ++ [calcCrc (f.drop 1) / 256, calcCrc (f.drop 1) % 256]

/-! ## devices/db: the data-point catalog

`genibus/devices/db.py` is not under `src/`.  Modelled from the spec: a
static, immutable table mapping symbolic data-point names to protocol-level
identifiers, keyed by class.  The identifiers used by the connect request
are pinned by the spec's known-good byte sequence (`buf_len=0x02`,
`unit_bus_mode=0x03`, `unit_addr=0x2e`, `group_addr=0x2f`,
`unit_family=0x94`, `unit_type=0x95`); the remaining identifiers and the
iteration (insertion) order of the measured-data items are modelled. -/

def protocolDataItems : List (String × Nat) :=
  [("buf_len", 0x02), ("unit_bus_mode", 0x03)]

def configurationParameterItems : List (String × Nat) :=
  [("unit_addr", 0x2e), ("group_addr", 0x2f)]

def measuredDataItems : List (String × Nat) :=
  [("h", 0x25), ("q", 0x27), ("speed", 0x30), ("p", 0x22),
   ("act_mode1", 0x51), ("alarm_code", 0x9e),
   ("unit_family", 0x94), ("unit_type", 0x95)]

def referenceValueItems : List (String × Nat) :=
  [("ref", 0x01)]

def commandItems : List (String × Nat) :=
  [("REMOTE", 0x07), ("START", 0x06), ("STOP", 0x05)]

/-- Modelled from the spec: `DeviceDB.dataitemsByClass("magna", klass)` — the
per-class name→identifier table of the catalog. -/
def dataitemsByClass (klass : Nat) : List (String × Nat) :=
  if klass = PROTOCOL_DATA then protocolDataItems
  else if klass = MEASURED_DATA then measuredDataItems
  else if klass = COMMANDS then commandItems
  else if klass = CONFIGURATION_PARAMETERS then configurationParameterItems
  else if klass = REFERENCE_VALUES then referenceValueItems
  else []

/-- Catalog lookup of one data point's identifier (`di[dp]` in the source;
`none` models the `KeyError` of an unknown name). -/
def lookupItem (klass : Nat) (dp : String) : Option Nat :=
  (dataitemsByClass klass).lookup dp

/-! ## apdu.py: the frame codec -/

/-- `createAPDUHeader` (apdu.py): the two header bytes of an APDU block —
the class byte and `(operationSpecifier << 6) | (length & 0x3F)`. -/
def createAPDUHeader (klass operationSpecifier length : Nat) : List Nat :=
  [klass, (operationSpecifier <<< 6) ||| (length &&& 0x3F)]

/-- `createAPDU` (apdu.py): a SET-style block carrying
(identifier, value) pairs; the header length argument is
`len(datapoints) * 2`. -/
def createAPDU (klass op : Nat) (datapoints : List (String × Nat)) :
    Option (List Nat) :=
  match datapoints.mapM (fun dv => (lookupItem klass dv.1).map (fun i => [i, dv.2])) with
  | none => none
  | some pairs => some (createAPDUHeader klass op (datapoints.length * 2) ++ pairs.flatten)

/-- `createAPDUNoData` (apdu.py): a GET/INFO/command block carrying
identifiers only; the header length argument is `len(datapoints)`. -/
def createAPDUNoData (klass op : Nat) (datapoints : List String) :
    Option (List Nat) :=
  match datapoints.mapM (lookupItem klass) with
  | none => none
  | some ids => some (createAPDUHeader klass op datapoints.length ++ ids)

def createGetInfoAPDU (klass : Nat) (datapoints : List String) : Option (List Nat) :=
  createAPDUNoData klass OP_INFO datapoints

def createGetMeasuredDataAPDU (klass : Nat) (datapoints : List String) : Option (List Nat) :=
  createAPDUNoData klass OP_GET datapoints

def createSetCommandsAPDU (datapoints : List String) : Option (List Nat) :=
  createAPDUNoData COMMANDS OP_SET datapoints

def createGetReferencesAPDU (datapoints : List String) : Option (List Nat) :=
  createAPDUNoData REFERENCE_VALUES OP_GET datapoints

def createSetReferencesAPDU (datapoints : List (String × Nat)) : Option (List Nat) :=
  createAPDU REFERENCE_VALUES OP_SET datapoints

def createGetStringsAPDU (datapoints : List String) : Option (List Nat) :=
  createAPDUNoData ASCII_STRINGS OP_GET datapoints

def createGetParametersAPDU (datapoints : List String) : Option (List Nat) :=
  createAPDUNoData CONFIGURATION_PARAMETERS OP_GET datapoints

def createSetParametersAPDU (datapoints : List (String × Nat)) : Option (List Nat) :=
  createAPDU CONFIGURATION_PARAMETERS OP_SET datapoints

def createGetProtocolDataAPDU (datapoints : List String) : Option (List Nat) :=
  createAPDUNoData PROTOCOL_DATA OP_GET datapoints

/-- `Header` (apdu.py): start delimiter and the two address bytes of a
request frame. -/
structure Header where
  startDelimiter : Nat
  destAddr : Nat
  sourceAddr : Nat

/-- A per-class block of a request: skipped entirely (empty bytes) when the
data-point list is empty, as the Python `if <list>:` guards do. -/
def getBlock (f : List String → Option (List Nat)) (dps : List String) :
    Option (List Nat) :=
  if dps.isEmpty then some [] else f dps

/-- Same skipping behaviour for blocks carrying (name, value) pairs. -/
def getBlockV (f : List (String × Nat) → Option (List Nat))
    (dps : List (String × Nat)) : Option (List Nat) :=
  if dps.isEmpty then some [] else f dps

/-- `createGetValuesPDU` (apdu.py): header, length byte
(`2 +` the summed block lengths), address bytes, the per-class blocks in the
fixed order protocol-data, parameters, measurements, references, strings,
and the checksum trailer. -/
def createGetValuesPDU (klass : Nat) (header : Header)
    (protocolData measurements parameter references strings : List String) :
    Option (List Nat) :=
  (getBlock createGetProtocolDataAPDU protocolData).bind fun pB =>
  (getBlock (createGetMeasuredDataAPDU klass) measurements).bind fun mB =>
  (getBlock createGetParametersAPDU parameter).bind fun aB =>
  (getBlock createGetReferencesAPDU references).bind fun rB =>
  (getBlock createGetStringsAPDU strings).bind fun sB =>
  some (append_tel
    ([header.startDelimiter,
      2 + pB.length + mB.length + aB.length + rB.length + sB.length,
      header.destAddr, header.sourceAddr] ++ pB ++ aB ++ mB ++ rB ++ sB))

/-- `createSetValuesPDU` (apdu.py): SET blocks for parameters then
references, same length rule and checksum trailer. -/
def createSetValuesPDU (header : Header)
    (parameter references : List (String × Nat)) : Option (List Nat) :=
  (getBlockV createSetParametersAPDU parameter).bind fun aB =>
  (getBlockV createSetReferencesAPDU references).bind fun rB =>
  some (append_tel
    ([header.startDelimiter, 2 + aB.length + rB.length,
      header.destAddr, header.sourceAddr] ++ aB ++ rB))

/-- `createSetCommandsPDU` (apdu.py): a single unconditional commands
block. -/
def createSetCommandsPDU (header : Header) (commands : List String) :
    Option (List Nat) :=
  (createSetCommandsAPDU commands).bind fun cB =>
  some (append_tel
    ([header.startDelimiter, 2 + cB.length,
      header.destAddr, header.sourceAddr] ++ cB))

/-- `createConnectRequestPDU` (apdu.py): the fixed handshake request —
GET of `buf_len`/`unit_bus_mode` (protocol data), `unit_addr`/`group_addr`
(parameters) and `unit_family`/`unit_type` (measured data) addressed to
`CONNECTION_REQ_ADDR`. -/
def createConnectRequestPDU (sourceAddr : Nat) : Option (List Nat) :=
  createGetValuesPDU 2
    ⟨SD_DATA_REQUEST, CONNECTION_REQ_ADDR, sourceAddr⟩
    ["buf_len", "unit_bus_mode"]
    ["unit_family", "unit_type"]
    ["unit_addr", "group_addr"]
    [] []

/-! ## exceptions.py and the engine's observable behaviour -/

/-- The exception taxonomy of `genibus/exceptions.py` (plus Python's builtin
`ValueError` used by `set_reference`), flattened to the kinds the claims
distinguish. -/
inductive GBErr where
  | connectionErr
  | protoErr
  | timeoutErr
  | valueErr
  deriving DecidableEq, Repr

/-- The distinct failure messages of `CU300Protocol._read_frame`
(protocol.py); all of them are raised as `ProtocolError`. -/
inductive RErr where
  | noData
  | invalidStart
  | noLength
  | invalidLen
  | incomplete
  | crcFail
  deriving DecidableEq, Repr

/-- `CU300Protocol._read_frame` (protocol.py) over a byte stream modelled as
the list of bytes the transport can deliver: one delimiter byte (rejected
outside the known delimiter set), one length byte (rejected above
`MAX_PDU_LEN`), then up to `length + 2` further bytes — a stream `read(n)`
returns at most the bytes available, and a short result is the distinct
incomplete-frame failure.  The assembled frame is checksum-verified before
it is returned. -/
def readFrame (s : List Nat) : Except RErr (List Nat) :=
  match s with
  | [] => .error .noData
  | start :: rest =>
    if start ∉ [SD_DATA_REQUEST, SD_DATA_REPLY, SD_DATA_MESSAGE] then
      .error .invalidStart
    else
      match rest with
      | [] => .error .noLength
      | length :: rest2 =>
        if MAX_PDU_LEN < length then .error .invalidLen
        else
          let remaining := rest2.take (length + 2)
          if remaining.length ≠ length + 2 then .error .incomplete
          else
            let frame := start :: length :: remaining
            if check_tel frame then .ok frame else .error .crcFail

/-- The value-assignment loop of `APDU.from_bytes` (apdu.py): walk the
measured-data catalog items in insertion order, assigning to each the raw
byte `data[offset]` while `offset + 1 < len(data)` holds, advancing the
offset by one per assigned item. -/
def fbLoop : List (String × Nat) → List Nat → Nat → List (String × Nat)
  | [], _, _ => []
  | item :: restItems, data, offset =>
    if offset + 1 < data.length then
      (item.1, data.getD offset 0) :: fbLoop restItems data (offset + 1)
    else
      fbLoop restItems data offset

namespace APDU

/-- `APDU.from_bytes` (apdu.py): `none` when `crc.check_tel` rejects the
buffer, otherwise the name→raw-byte assignment starting at offset 4. -/
def from_bytes (data : List Nat) : Option (List (String × Nat)) :=
  if check_tel data then some (fbLoop measuredDataItems data 4) else none

/-- `APDU.get_value` (apdu.py). -/
def get_value (d : List (String × Nat)) (key : String) : Option Nat :=
  d.lookup key

end APDU

/-- The fixed output-name → catalog-name table of
`CU300Protocol._parse_response` (protocol.py). -/
def parseKeys : List (String × String) :=
  [("head", "h"), ("flow", "q"), ("speed", "speed"), ("power", "p"),
   ("act_mode1", "act_mode1"), ("alarm_code", "alarm_code")]

/-- `CU300Protocol._parse_response` (protocol.py): parse the frame through
`APDU.from_bytes` (a `None` APDU is a `ProtocolError`), read the six output
keys and filter out the `None` values. -/
def parse_response (response : List Nat) :
    Except GBErr (List (String × Nat)) :=
  match APDU.from_bytes response with
  | none => .error .protoErr
  | some d =>
      .ok (parseKeys.filterMap (fun p =>
        (APDU.get_value d p.2).map (fun v => (p.1, v))))

/-- The transport-level events of one engine operation, in order. -/
inductive Ev where
  | lockAcq
  | lockRel
  | connOpen
  | connClose
  | write (pdu : List Nat)
  | readEv
  deriving DecidableEq, Repr

/-- The device's behaviour during one exchange: `none` — the device stays
silent until `asyncio.wait_for` expires; `some s` — the transport delivers
the byte stream `s` to `_read_frame` in time. -/
def DeviceBehaviour : Type := Option (List Nat)

/-- `CU300Protocol._send_and_receive` (protocol.py): refuse when not
connected, re-append the checksum when the buffer does not already carry a
valid one, write the frame, then read one frame within the timeout — a
timeout surfaces as `ProtocolError` ("Response timeout"), as does every
`_read_frame` failure. -/
def sendAndReceive (connected : Bool) (pdu : List Nat)
    (dev : DeviceBehaviour) : Except GBErr (List Nat) × List Ev :=
  if connected = false then (.error .connectionErr, [])
  else
    let pdu2 := if check_tel pdu then pdu else append_tel pdu
    match dev with
    | none => (.error .protoErr, [Ev.write pdu2])
    | some s =>
      match readFrame s with
      | .error _ => (.error .protoErr, [Ev.write pdu2, Ev.readEv])
      | .ok f => (.ok f, [Ev.write pdu2, Ev.readEv])

/-- The request `CU300Protocol.poll_data` builds: GET of the five fixed
measurement names with the default addresses (device `0x20`, source
`0x04`). -/
def pollRequestPDU : Option (List Nat) :=
  createGetValuesPDU MEASURED_DATA ⟨SD_DATA_REQUEST, 0x20, 0x04⟩
    [] ["h", "q", "speed", "act_mode1", "alarm_code"] [] [] []

/-- `CU300Protocol.poll_data` (protocol.py): under the engine lock, build
the get-values request, exchange it, require a non-empty response and parse
it.  Every failure of the exchange or the parse surfaces as
`ProtocolError`; the lock is released on every path. -/
def pollData (connected : Bool) (dev : DeviceBehaviour) :
    Except GBErr (List (String × Nat)) × List Ev :=
  match pollRequestPDU with
  | none => (.error .protoErr, [Ev.lockAcq, Ev.lockRel])
  | some pdu =>
    let se := sendAndReceive connected pdu dev
    match se.1 with
    | .error e => (.error e, Ev.lockAcq :: se.2 ++ [Ev.lockRel])
    | .ok resp =>
      if resp.isEmpty then (.error .protoErr, Ev.lockAcq :: se.2 ++ [Ev.lockRel])
      else
        match parse_response resp with
        | .error e => (.error e, Ev.lockAcq :: se.2 ++ [Ev.lockRel])
        | .ok data => (.ok data, Ev.lockAcq :: se.2 ++ [Ev.lockRel])

/-- `CU300Protocol.start_pump` (protocol.py): under the lock, send the
REMOTE+START set-commands request; any failure is wrapped into
`ProtocolError`, any non-empty well-formed response is success. -/
def startPump (connected : Bool) (dev : DeviceBehaviour) :
    Except GBErr Unit × List Ev :=
  match createSetCommandsPDU ⟨SD_DATA_REQUEST, 0x20, 0x04⟩ ["REMOTE", "START"] with
  | none => (.error .protoErr, [Ev.lockAcq, Ev.lockRel])
  | some pdu =>
    let se := sendAndReceive connected pdu dev
    match se.1 with
    | .error _ => (.error .protoErr, Ev.lockAcq :: se.2 ++ [Ev.lockRel])
    | .ok resp =>
      if resp.isEmpty then (.error .protoErr, Ev.lockAcq :: se.2 ++ [Ev.lockRel])
      else (.ok (), Ev.lockAcq :: se.2 ++ [Ev.lockRel])

/-- `CU300Protocol.stop_pump` (protocol.py): like `startPump` with the STOP
command set. -/
def stopPump (connected : Bool) (dev : DeviceBehaviour) :
    Except GBErr Unit × List Ev :=
  match createSetCommandsPDU ⟨SD_DATA_REQUEST, 0x20, 0x04⟩ ["STOP"] with
  | none => (.error .protoErr, [Ev.lockAcq, Ev.lockRel])
  | some pdu =>
    let se := sendAndReceive connected pdu dev
    match se.1 with
    | .error _ => (.error .protoErr, Ev.lockAcq :: se.2 ++ [Ev.lockRel])
    | .ok resp =>
      if resp.isEmpty then (.error .protoErr, Ev.lockAcq :: se.2 ++ [Ev.lockRel])
      else (.ok (), Ev.lockAcq :: se.2 ++ [Ev.lockRel])

/-- `CU300Protocol.set_reference` (protocol.py): values outside `[0, 100]`
fail with `ValueError` before the lock is taken and before any transport
I/O; in-range values build the set-references request under the lock and
exchange it, with failures wrapped into `ProtocolError`. -/
def setReference (value : Int) (connected : Bool) (dev : DeviceBehaviour) :
    Except GBErr Unit × List Ev :=
  if value < 0 ∨ 100 < value then (.error .valueErr, [])
  else
    match createSetValuesPDU ⟨SD_DATA_REQUEST, 0x20, 0x04⟩ [] [("ref", value.toNat)] with
    | none => (.error .protoErr, [Ev.lockAcq, Ev.lockRel])
    | some pdu =>
      let se := sendAndReceive connected pdu dev
      match se.1 with
      | .error _ => (.error .protoErr, Ev.lockAcq :: se.2 ++ [Ev.lockRel])
      | .ok resp =>
        if resp.isEmpty then (.error .protoErr, Ev.lockAcq :: se.2 ++ [Ev.lockRel])
        else (.ok (), Ev.lockAcq :: se.2 ++ [Ev.lockRel])

/-- The outcome of the physical transport connect
(`asyncio.wait_for(self._connection.connect(), timeout=10)`). -/
inductive PhysOutcome where
  | okP
  | timeoutP
  | errP
  deriving DecidableEq, Repr

/-- `CU300Protocol.connect` (protocol.py).  State is the connection handle:
`true` when `self._connection` is set.  Mirrors the exception handling of
the source: a missing host/port or a transport error reaches the generic
`except Exception` handler, which disconnects and clears the handle before
raising `ConnectionError`; an `asyncio.TimeoutError` from the physical
connect reaches the dedicated handler, which raises `ConnectionError`
without touching the handle.  Returns ((handle after, surfaced error),
events). -/
def connectEngine (prevConn : Bool) (hostOk : Bool) (phys : PhysOutcome)
    (dev : DeviceBehaviour) : (Bool × Option GBErr) × List Ev :=
  if hostOk = false then
    ((false, some .connectionErr), if prevConn then [Ev.connClose] else [])
  else
    match phys with
    | .timeoutP => ((true, some .connectionErr), [])
    | .errP => ((false, some .connectionErr), [Ev.connClose])
    | .okP =>
      match createConnectRequestPDU 0x04 with
      | none => ((false, some .connectionErr), [Ev.connOpen, Ev.connClose])
      | some pdu =>
        let se := sendAndReceive true pdu dev
        match se.1 with
        | .error _ => ((false, some .connectionErr), Ev.connOpen :: se.2 ++ [Ev.connClose])
        | .ok resp =>
          if resp.isEmpty then
            ((false, some .connectionErr), Ev.connOpen :: se.2 ++ [Ev.connClose])
          else ((true, none), Ev.connOpen :: se.2)

/-! ## Checksum theory: linearity of the rolling computation and
single-byte error detection -/

theorem xor_shiftLeft_distrib (a b k : Nat) :
    (a ^^^ b) <<< k = (a <<< k) ^^^ (b <<< k) := by
  apply Nat.eq_of_testBit_eq
  intro i
  simp [Nat.testBit_shiftLeft, Nat.testBit_xor, Bool.and_xor_distrib_left]

theorem xor_mod_two_pow_distrib (a b k : Nat) :
    (a ^^^ b) % 2 ^ k = a % 2 ^ k ^^^ b % 2 ^ k := by
  apply Nat.eq_of_testBit_eq
  intro i
  simp [Nat.testBit_mod_two_pow, Nat.testBit_xor, Bool.and_xor_distrib_left]

theorem xor_xor_cancel_right (x y z : Nat) : (x ^^^ z) ^^^ (y ^^^ z) = x ^^^ y := by
  apply Nat.eq_of_testBit_eq
  intro i
  simp only [Nat.testBit_xor]
  cases x.testBit i <;> cases y.testBit i <;> cases z.testBit i <;> rfl

theorem xor_xor_cancel_left (x y z : Nat) : (z ^^^ x) ^^^ (z ^^^ y) = x ^^^ y := by
  apply Nat.eq_of_testBit_eq
  intro i
  simp only [Nat.testBit_xor]
  cases x.testBit i <;> cases y.testBit i <;> cases z.testBit i <;> rfl

theorem crcStep_lt (c : Nat) : crcStep c < 65536 := by
  unfold crcStep
  rw [show (65536 : Nat) = 2 ^ 16 by norm_num]
  apply Nat.xor_lt_two_pow
  · exact Nat.mod_lt _ (by norm_num)
  · split <;> norm_num

theorem ite_xor (p q : Bool) (v : Nat) :
    (if (p ^^ q) = true then v else 0) = (if p = true then v else 0) ^^^ (if q = true then v else 0) := by
  cases p <;> cases q <;> simp

theorem xor_xor_xor_comm (x y u v : Nat) : (x ^^^ y) ^^^ (u ^^^ v) = (x ^^^ u) ^^^ (y ^^^ v) := by
  apply Nat.eq_of_testBit_eq
  intro i
  simp only [Nat.testBit_xor]
  cases x.testBit i <;> cases y.testBit i <;> cases u.testBit i <;> cases v.testBit i <;> rfl

theorem crcStep_xor (a b : Nat) : crcStep (a ^^^ b) = crcStep a ^^^ crcStep b := by
  unfold crcStep
  rw [xor_shiftLeft_distrib, show (65536 : Nat) = 2 ^ 16 by norm_num,
    xor_mod_two_pow_distrib, Nat.testBit_xor, ite_xor, xor_xor_xor_comm]

theorem crcStep_eq_zero (c : Nat) (hc : c < 65536) (h : crcStep c = 0) : c = 0 := by
  have key : (c <<< 1) % 65536 = 2 * (c % 32768) := by
    rw [Nat.shiftLeft_eq, pow_one, Nat.mul_comm c 2,
      show (65536 : Nat) = 2 * 32768 by norm_num, Nat.mul_mod_mul_left]
  have ht : c.testBit 15 = decide (c / 32768 % 2 = 1) := by
    rw [Nat.testBit_to_div_mod]
  unfold crcStep at h
  by_cases h15 : c.testBit 15 = true
  · rw [if_pos h15, key] at h
    have h2 := Nat.xor_eq_zero.mp h
    omega
  · rw [if_neg h15, Nat.xor_zero, key] at h
    rw [ht] at h15
    simp only [decide_eq_true_eq] at h15
    omega

theorem crcStepN_lt (k : Nat) : ∀ c, c < 65536 → crcStepN k c < 65536 := by
  induction k with
  | zero => intro c hc; exact hc
  | succ k ih => intro c _; exact ih (crcStep c) (crcStep_lt c)

theorem crcStepN_xor (k : Nat) : ∀ a b, crcStepN k (a ^^^ b) = crcStepN k a ^^^ crcStepN k b := by
  induction k with
  | zero => intro a b; rfl
  | succ k ih => intro a b; show crcStepN k (crcStep (a ^^^ b)) = _; rw [crcStep_xor, ih]; rfl

theorem crcStepN_ne_zero (k : Nat) : ∀ d, d ≠ 0 → d < 65536 → crcStepN k d ≠ 0 := by
  induction k with
  | zero => intro d hd _; exact hd
  | succ k ih =>
    intro d hd hlt
    exact ih (crcStep d) (fun h0 => hd (crcStep_eq_zero d hlt h0)) (crcStep_lt d)

theorem crcStepN_add (m k : Nat) : ∀ c, crcStepN (m + k) c = crcStepN m (crcStepN k c) := by
  induction k with
  | zero => intro c; rfl
  | succ k ih =>
    intro c
    show crcStepN (m + k + 1) c = _
    show crcStepN (m + k) (crcStep c) = _
    rw [ih (crcStep c)]
    rfl

theorem crcByte_xor_state (c1 c2 b : Nat) :
    crcByte c1 b ^^^ crcByte c2 b = crcStepN 8 (c1 ^^^ c2) := by
  unfold crcByte
  rw [← crcStepN_xor, xor_xor_cancel_right]

theorem crcByte_xor_byte (c b1 b2 : Nat) :
    crcByte c b1 ^^^ crcByte c b2 = crcStepN 8 ((b1 ^^^ b2) <<< 8) := by
  unfold crcByte
  rw [← crcStepN_xor, xor_xor_cancel_left, ← xor_shiftLeft_distrib]

theorem crcFold_xor (bs : List Nat) :
    ∀ c1 c2, crcFold c1 bs ^^^ crcFold c2 bs = crcStepN (8 * bs.length) (c1 ^^^ c2) := by
  induction bs with
  | nil => intro c1 c2; rfl
  | cons b t ih =>
    intro c1 c2
    show crcFold (crcByte c1 b) t ^^^ crcFold (crcByte c2 b) t = _
    rw [ih, crcByte_xor_state, ← crcStepN_add]
    simp only [List.length_cons, Nat.mul_succ]

theorem shifted_byte_ne_zero (b1 b2 : Nat) (h : b1 ≠ b2) : (b1 ^^^ b2) <<< 8 ≠ 0 := by
  rw [Nat.shiftLeft_eq]
  intro hz
  rcases Nat.mul_eq_zero.mp hz with h0 | h0
  · exact h (Nat.xor_eq_zero.mp h0)
  · norm_num at h0

theorem shifted_byte_lt (b1 b2 : Nat) (h1 : b1 < 256) (h2 : b2 < 256) :
    (b1 ^^^ b2) <<< 8 < 65536 := by
  have h256 : (2 : Nat) ^ 8 = 256 := by norm_num
  have hx : b1 ^^^ b2 < 256 := by
    rw [← h256]
    exact Nat.xor_lt_two_pow (by rw [h256]; exact h1) (by rw [h256]; exact h2)
  rw [Nat.shiftLeft_eq, h256]
  omega

theorem crcFold_set_ne (l : List Nat) :
    ∀ (i b2 c : Nat), i < l.length → l.getD i 0 < 256 → b2 < 256 →
      b2 ≠ l.getD i 0 → crcFold c (l.set i b2) ≠ crcFold c l := by
  induction l with
  | nil => intro i b2 c hi; simp at hi
  | cons a t ih =>
    intro i b2 c hi ha hb hne heq
    cases i with
    | zero =>
      simp only [List.set] at heq
      have h0 : crcFold (crcByte c b2) t ^^^ crcFold (crcByte c a) t = 0 := by
        have : crcFold c (b2 :: t) = crcFold (crcByte c b2) t := rfl
        rw [← this, heq]
        show crcFold (crcByte c a) t ^^^ crcFold (crcByte c a) t = 0
        exact Nat.xor_self _
      rw [crcFold_xor, crcByte_xor_byte, ← crcStepN_add] at h0
      have hgd : (a :: t).getD 0 0 = a := rfl
      rw [hgd] at ha hne
      exact crcStepN_ne_zero _ _ (shifted_byte_ne_zero b2 a hne) (shifted_byte_lt b2 a hb ha) h0
    | succ j =>
      have hi' : j < t.length := by simpa using hi
      have hgd : (a :: t).getD (j + 1) 0 = t.getD j 0 := rfl
      rw [hgd] at ha hne
      have hset : (a :: t).set (j + 1) b2 = a :: t.set j b2 := rfl
      rw [hset] at heq
      exact ih j b2 (crcByte c a) hi' ha hb hne heq

theorem calcCrc_set_ne (l : List Nat) (i b2 : Nat) (hi : i < l.length)
    (ha : l.getD i 0 < 256) (hb : b2 < 256) (hne : b2 ≠ l.getD i 0) :
    calcCrc (l.set i b2) ≠ calcCrc l := by
  unfold calcCrc
  intro h
  have h2 : crcFold 0xFFFF (l.set i b2) = crcFold 0xFFFF l := by
    have := congrArg (· ^^^ 0xFFFF) h
    simpa [Nat.xor_cancel_right] using this
  exact crcFold_set_ne l i b2 0xFFFF hi ha hb hne h2

theorem drop_one_set (l : List Nat) (i b : Nat) (h : 1 ≤ i) :
    (l.set i b).drop 1 = (l.drop 1).set (i - 1) b := by
  cases l with
  | nil => simp
  | cons a t =>
    obtain ⟨j, rfl⟩ : ∃ j, i = j + 1 := ⟨i - 1, by omega⟩
    rfl

theorem set_of_length_le (l : List Nat) (i b : Nat) (h : l.length ≤ i) :
    l.set i b = l := by
  induction l generalizing i with
  | nil => rfl
  | cons a t ih =>
    cases i with
    | zero => simp at h
    | succ j =>
      show a :: t.set j b = a :: t
      rw [ih j (by simpa using h)]

theorem getD_set_ne (l : List Nat) (i j b : Nat) (h : i ≠ j) :
    (l.set i b).getD j 0 = l.getD j 0 := by
  rw [List.getD_eq_getElem?_getD, List.getElem?_set_ne h, ← List.getD_eq_getElem?_getD]

theorem check_tel_unpack (f : List Nat) (h : check_tel f = true) :
    4 ≤ f.length ∧ calcCrc (crcSpan f) = storedCrc f := by
  unfold check_tel at h
  rw [Bool.and_eq_true, decide_eq_true_eq, beq_iff_eq] at h
  exact h

theorem check_tel_set_false (f : List Nat) (i b2 : Nat)
    (hv : check_tel f = true) (h1 : 1 ≤ i) (h2 : i < f.length)
    (hbytes : ∀ x ∈ f, x < 256) (hb : b2 < 256) (hne : b2 ≠ f.getD i 0) :
    check_tel (f.set i b2) = false := by
  obtain ⟨hlen, heq⟩ := check_tel_unpack f hv
  have hlset : (f.set i b2).length = f.length := List.length_set f i b2
  have hsl : (crcSpan f).length = f.length - 3 := by
    unfold crcSpan
    simp only [List.length_drop, List.length_take]
    omega
  suffices hne2 : calcCrc (crcSpan (f.set i b2)) ≠ storedCrc (f.set i b2) by
    unfold check_tel
    rw [Bool.and_eq_false_iff]
    right
    rw [beq_eq_false_iff_ne]
    exact hne2
  rcases Nat.lt_trichotomy i (f.length - 2) with hcase | hcase | hcase
  · -- flip inside the checksummed span
    have hspan : crcSpan (f.set i b2) = (crcSpan f).set (i - 1) b2 := by
      unfold crcSpan
      rw [hlset, List.set_take, drop_one_set _ i b2 h1]
    have hstored : storedCrc (f.set i b2) = storedCrc f := by
      unfold storedCrc
      rw [hlset, getD_set_ne _ _ _ _ (by omega), getD_set_ne _ _ _ _ (by omega)]
    have hgi : (crcSpan f).getD (i - 1) 0 = f.getD i 0 := by
      unfold crcSpan
      rw [List.getD_eq_getElem?_getD, List.getElem?_drop, List.getElem?_take,
        if_pos (by omega), show 1 + (i - 1) = i by omega, ← List.getD_eq_getElem?_getD]
    have hfi : f.getD i 0 < 256 := by
      rw [List.getD_eq_getElem f 0 h2]
      exact hbytes _ (List.getElem_mem h2)
    have hd := calcCrc_set_ne (crcSpan f) (i - 1) b2 (by omega)
      (by rw [hgi]; exact hfi) hb (by rw [hgi]; exact hne)
    rw [hspan, hstored]
    intro hc
    exact hd (hc.trans heq.symm)
  · -- flip of the high checksum byte
    have hspan : crcSpan (f.set i b2) = crcSpan f := by
      unfold crcSpan
      rw [hlset, List.set_take, set_of_length_le _ _ _ (by simp [List.length_take]; omega)]
    have hhts : (f.set i b2).getD (f.length - 2) 0 = b2 := by
      rw [← hcase, List.getD_eq_getElem?_getD, List.getElem?_set_self (by omega)]
      rfl
    have hlo : (f.set i b2).getD (f.length - 1) 0 = f.getD (f.length - 1) 0 :=
      getD_set_ne _ _ _ _ (by omega)
    rw [hspan, heq]
    unfold storedCrc
    rw [hlset, hhts, hlo]
    rw [hcase] at hne
    intro hc
    omega
  · -- flip of the low checksum byte
    have hieq : i = f.length - 1 := by omega
    have hspan : crcSpan (f.set i b2) = crcSpan f := by
      unfold crcSpan
      rw [hlset, List.set_take, set_of_length_le _ _ _ (by simp [List.length_take]; omega)]
    have hhi : (f.set i b2).getD (f.length - 2) 0 = f.getD (f.length - 2) 0 :=
      getD_set_ne _ _ _ _ (by omega)
    have hlo : (f.set i b2).getD (f.length - 1) 0 = b2 := by
      rw [← hieq, List.getD_eq_getElem?_getD, List.getElem?_set_self (by omega)]
      rfl
    rw [hspan, heq]
    unfold storedCrc
    rw [hlset, hhi, hlo]
    rw [hieq] at hne
    intro hc
    omega

/-! ## Receiver structure lemmas -/

/-- A complete, delimiter- and length-valid stream is accepted or rejected
by `readFrame` purely on the checksum. -/
theorem readFrame_complete (d l : Nat) (rest : List Nat)
    (hd : d ∈ [SD_DATA_REQUEST, SD_DATA_REPLY, SD_DATA_MESSAGE])
    (hl : l ≤ MAX_PDU_LEN) (hr : rest.length = l + 2) :
    readFrame (d :: l :: rest) =
      if check_tel (d :: l :: rest) then .ok (d :: l :: rest)
      else .error .crcFail := by
  have hstep : readFrame (d :: l :: rest) =
      (if d ∉ [SD_DATA_REQUEST, SD_DATA_REPLY, SD_DATA_MESSAGE] then
        Except.error RErr.invalidStart
      else if MAX_PDU_LEN < l then Except.error RErr.invalidLen
      else if (rest.take (l + 2)).length ≠ l + 2 then Except.error RErr.incomplete
      else if check_tel (d :: l :: rest.take (l + 2)) then
        Except.ok (d :: l :: rest.take (l + 2))
      else Except.error RErr.crcFail) := rfl
  have htake : rest.take (l + 2) = rest := by
    rw [← hr]
    exact List.take_length rest
  rw [hstep, if_neg (not_not_intro hd), if_neg (by omega), htake, hr]
  simp only [ne_eq, not_true_eq_false, if_false]

/-! ## Claim C2 -/

/-- C2: For every byte stream that supplies fewer bytes than a complete
frame (delimiter, length byte, and `length + 2` further bytes), the frame
receiver `readFrame` never returns a successful completed frame, and
whenever the delimiter and length checks pass it returns the distinct
incomplete-frame failure. -/
theorem readFrame_short_never_ok (s : List Nat)
    (hshort : s.length < 4 + s.getD 1 0) :
    (∀ f, readFrame s ≠ .ok f) ∧
    (∀ d l rest, s = d :: l :: rest →
      d ∈ [SD_DATA_REQUEST, SD_DATA_REPLY, SD_DATA_MESSAGE] →
      l ≤ MAX_PDU_LEN → readFrame s = .error .incomplete) := by
  match s with
  | [] =>
    refine ⟨fun f h => by simp [readFrame] at h, fun d l rest h => by simp at h⟩
  | [d] =>
    have hstep1 : readFrame [d] =
        (if d ∉ [SD_DATA_REQUEST, SD_DATA_REPLY, SD_DATA_MESSAGE] then
          Except.error RErr.invalidStart
        else Except.error RErr.noLength) := rfl
    constructor
    · intro f h
      rw [hstep1] at h
      by_cases hd : d ∉ [SD_DATA_REQUEST, SD_DATA_REPLY, SD_DATA_MESSAGE]
      · rw [if_pos hd] at h
        exact Except.noConfusion h
      · rw [if_neg hd] at h
        exact Except.noConfusion h
    · intro d2 l rest h
      simp at h
  | d :: l :: rest =>
    have hlen : rest.length < l + 2 := by
      have hg : (d :: l :: rest).getD 1 0 = l := rfl
      rw [hg] at hshort
      simp only [List.length_cons] at hshort
      omega
    have hstep : readFrame (d :: l :: rest) =
        (if d ∉ [SD_DATA_REQUEST, SD_DATA_REPLY, SD_DATA_MESSAGE] then
          Except.error RErr.invalidStart
        else if MAX_PDU_LEN < l then Except.error RErr.invalidLen
        else if (rest.take (l + 2)).length ≠ l + 2 then Except.error RErr.incomplete
        else if check_tel (d :: l :: rest.take (l + 2)) then
          Except.ok (d :: l :: rest.take (l + 2))
        else Except.error RErr.crcFail) := rfl
    have htl : (rest.take (l + 2)).length ≠ l + 2 := by
      rw [List.length_take]
      omega
    constructor
    · intro f h
      rw [hstep] at h
      by_cases hd : d ∉ [SD_DATA_REQUEST, SD_DATA_REPLY, SD_DATA_MESSAGE]
      · rw [if_pos hd] at h
        exact Except.noConfusion h
      · rw [if_neg hd] at h
        by_cases hml : MAX_PDU_LEN < l
        · rw [if_pos hml] at h
          exact Except.noConfusion h
        · rw [if_neg hml, if_pos htl] at h
          exact Except.noConfusion h
    · intro d2 l2 rest2 heq hd hml
      injection heq with h1 heq
      injection heq with h2 h3
      subst h1; subst h2; subst h3
      rw [hstep, if_neg (not_not_intro hd), if_neg (by omega), if_pos htl]

/-- C2 witness: the four-byte stream `24 05 01 02` declares a frame needing
seven bytes after the length byte but supplies two; the receiver reports
the incomplete-frame failure, not a success. -/
theorem readFrame_short_never_ok_witness :
    ([0x24, 0x05, 0x01, 0x02] : List Nat).length <
      4 + ([0x24, 0x05, 0x01, 0x02] : List Nat).getD 1 0 ∧
    (∀ f, readFrame [0x24, 0x05, 0x01, 0x02] ≠ .ok f) ∧
    readFrame [0x24, 0x05, 0x01, 0x02] = .error .incomplete := by
  have h := readFrame_short_never_ok [0x24, 0x05, 0x01, 0x02] (by decide)
  exact ⟨by decide, h.1,
    h.2 0x24 0x05 [0x01, 0x02] rfl (by decide) (by decide)⟩

/-! ## Claim C1 -/

/-- A captured valid response frame (reply delimiter, length 2, the two
address bytes, checksum trailer `1b 61`). -/
def frameF0 : List Nat := [0x24, 0x02, 0x20, 0x04, 0x1b, 0x61]

/-- C1 counterexample: flipping the single byte at index 0 of the captured
valid response frame `frameF0` (the start delimiter, `0x24 → 0x27`) does
NOT cause a checksum failure: the checksum still verifies, the APDU parser
decodes the frame to a value, and the frame receiver returns it as a
successful parse.  The claim "flipping any single byte ... yields a
failure, never a decoded result" is therefore false at this input. -/
theorem flip_delimiter_not_detected :
    check_tel frameF0 = true ∧
    frameF0.set 0 0x27 ≠ frameF0 ∧
    check_tel (frameF0.set 0 0x27) = true ∧
    APDU.from_bytes (frameF0.set 0 0x27) = some [("h", 0x1b)] ∧
    readFrame (frameF0.set 0 0x27) = .ok (frameF0.set 0 0x27) := by
  refine ⟨by decide, by decide, by decide, by decide, ?_⟩
  have h := readFrame_complete 0x27 0x02 [0x20, 0x04, 0x1b, 0x61]
    (by decide) (by decide) (by decide)
  rw [show frameF0.set 0 0x27 = 0x27 :: 0x02 :: [0x20, 0x04, 0x1b, 0x61] from rfl, h,
    if_pos (by decide)]

/-- C1 (amended): for every captured valid response frame, flipping any
single byte other than the start delimiter causes a checksum failure:
`check_tel` rejects the modified buffer, the APDU parser `from_bytes`
returns no decoded result, and — for flips after the length byte — the
frame receiver fed the modified frame reports the checksum failure. -/
theorem flip_nondelimiter_detected (f : List Nat) (i b2 : Nat)
    (hv : check_tel f = true) (hbytes : ∀ x ∈ f, x < 256)
    (h1 : 1 ≤ i) (h2 : i < f.length) (hb : b2 < 256)
    (hne : b2 ≠ f.getD i 0) :
    check_tel (f.set i b2) = false ∧
    APDU.from_bytes (f.set i b2) = none ∧
    (∀ d l rest, f = d :: l :: rest →
      d ∈ [SD_DATA_REQUEST, SD_DATA_REPLY, SD_DATA_MESSAGE] →
      rest.length = l + 2 → 2 ≤ i →
      readFrame (f.set i b2) = .error .crcFail) := by
  have hfail := check_tel_set_false f i b2 hv h1 h2 hbytes hb hne
  refine ⟨hfail, ?_, ?_⟩
  · unfold APDU.from_bytes
    rw [hfail]
    rfl
  · intro d l rest heq hd hr hi2
    obtain ⟨j, rfl⟩ : ∃ j, i = j + 2 := ⟨i - 2, by omega⟩
    subst heq
    have hset : (d :: l :: rest).set (j + 2) b2 = d :: l :: rest.set j b2 := rfl
    have hl : l < 256 := hbytes l (by simp)
    have hrl : (rest.set j b2).length = l + 2 := by
      rw [List.length_set]
      exact hr
    rw [hset] at hfail ⊢
    rw [readFrame_complete d l (rest.set j b2) hd (by unfold MAX_PDU_LEN; omega) hrl,
      if_neg (by rw [hfail]; exact Bool.false_ne_true)]

/-- C1 witness: flipping byte 2 (destination address `0x20 → 0x21`) of the
captured valid frame `frameF0` is rejected by the checksum in both the
parser and the receiver. -/
theorem flip_nondelimiter_detected_witness :
    check_tel frameF0 = true ∧
    check_tel (frameF0.set 2 0x21) = false ∧
    APDU.from_bytes (frameF0.set 2 0x21) = none ∧
    readFrame (frameF0.set 2 0x21) = .error .crcFail := by
  have h := flip_nondelimiter_detected frameF0 2 0x21 (by decide) (by decide)
    (by decide) (by decide) (by decide) (by decide)
  exact ⟨by decide, h.1, h.2.1,
    h.2.2 0x24 0x02 [0x20, 0x04, 0x1b, 0x61] rfl (by decide) (by decide) (by decide)⟩

/-! ## Codec builder structure (claims C5, C6) -/

/-- Appending the checksum trailer yields a buffer that re-verifies. -/
theorem check_tel_append_tel (f : List Nat) (hf : 2 ≤ f.length) :
    check_tel (append_tel f) = true := by
  unfold append_tel check_tel
  set c := calcCrc (f.drop 1) with hc
  have hlen : (f ++ [c / 256, c % 256]).length = f.length + 2 := by
    simp
  have hspan : crcSpan (f ++ [c / 256, c % 256]) = f.drop 1 := by
    unfold crcSpan
    rw [hlen, Nat.add_sub_cancel, List.take_left]
  have hhi : (f ++ [c / 256, c % 256]).getD f.length 0 = c / 256 := by
    rw [List.getD_eq_getElem?_getD, List.getElem?_append,
      if_neg (by omega), Nat.sub_self]
    rfl
  have hlo : (f ++ [c / 256, c % 256]).getD (f.length + 1) 0 = c % 256 := by
    rw [List.getD_eq_getElem?_getD, List.getElem?_append,
      if_neg (by omega), Nat.add_sub_cancel_left]
    rfl
  unfold storedCrc
  rw [hlen, Nat.add_sub_cancel, show f.length + 2 - 1 = f.length + 1 by omega,
    hspan, hhi, hlo, hc]
  have hrt : 256 * (calcCrc (f.drop 1) / 256) + calcCrc (f.drop 1) % 256 =
      calcCrc (f.drop 1) := by omega
  rw [hrt]
  simp only [beq_self_eq_true, Bool.and_true, decide_eq_true_eq]
  omega

/-- Structure of a built frame: length byte, total length, payload slice
and checksum round trip. -/
theorem pdu_frame_facts (sd L da sa : Nat) (body : List Nat) :
    (append_tel ([sd, L, da, sa] ++ body)).getD 1 0 = L ∧
    (append_tel ([sd, L, da, sa] ++ body)).length = body.length + 6 ∧
    ((append_tel ([sd, L, da, sa] ++ body)).drop 4).take body.length = body ∧
    check_tel (append_tel ([sd, L, da, sa] ++ body)) = true := by
  have hform : append_tel ([sd, L, da, sa] ++ body) =
      sd :: L :: da :: sa :: (body ++
        [calcCrc (([sd, L, da, sa] ++ body).drop 1) / 256,
         calcCrc (([sd, L, da, sa] ++ body).drop 1) % 256]) := by
    unfold append_tel
    simp
  refine ⟨?_, ?_, ?_, ?_⟩
  · rw [hform]; rfl
  · rw [hform]; simp
  · rw [hform]
    show (body ++ _).take body.length = body
    exact List.take_left body _
  · exact check_tel_append_tel _ (by simp)

/-- Unpacking the five-way match of `createGetValuesPDU`. -/
theorem createGetValuesPDU_shape (klass : Nat) (h : Header)
    (pd ms pr rf st : List String) (pdu : List Nat)
    (hp : createGetValuesPDU klass h pd ms pr rf st = some pdu) :
    ∃ pB mB aB rB sB,
      getBlock createGetProtocolDataAPDU pd = some pB ∧
      getBlock (createGetMeasuredDataAPDU klass) ms = some mB ∧
      getBlock createGetParametersAPDU pr = some aB ∧
      getBlock createGetReferencesAPDU rf = some rB ∧
      getBlock createGetStringsAPDU st = some sB ∧
      pdu = append_tel ([h.startDelimiter,
        2 + pB.length + mB.length + aB.length + rB.length + sB.length,
        h.destAddr, h.sourceAddr] ++ (pB ++ (aB ++ (mB ++ (rB ++ sB))))) := by
  unfold createGetValuesPDU at hp
  obtain ⟨pB, hpB, hp⟩ := Option.bind_eq_some.mp hp
  obtain ⟨mB, hmB, hp⟩ := Option.bind_eq_some.mp hp
  obtain ⟨aB, haB, hp⟩ := Option.bind_eq_some.mp hp
  obtain ⟨rB, hrB, hp⟩ := Option.bind_eq_some.mp hp
  obtain ⟨sB, hsB, hp⟩ := Option.bind_eq_some.mp hp
  refine ⟨pB, mB, aB, rB, sB, hpB, hmB, haB, hrB, hsB, ?_⟩
  have := Option.some.inj hp
  rw [← this]
  simp [List.append_assoc]

/-! ## Claim C5 -/

/-- C5: every request built by the codec builders has its length field equal
to the total payload byte count plus 2 (the two address bytes), the payload
equals the concatenation of the per-class APDU blocks in the fixed order
protocol-data, parameters, measurements, references, strings, and the
checksum trailer is appended last (so the built frame re-verifies). -/
theorem builders_length_field_and_block_order :
    (∀ klass h pd ms pr rf st pdu,
      createGetValuesPDU klass h pd ms pr rf st = some pdu →
      ∃ pB mB aB rB sB,
        getBlock createGetProtocolDataAPDU pd = some pB ∧
        getBlock (createGetMeasuredDataAPDU klass) ms = some mB ∧
        getBlock createGetParametersAPDU pr = some aB ∧
        getBlock createGetReferencesAPDU rf = some rB ∧
        getBlock createGetStringsAPDU st = some sB ∧
        pdu.getD 1 0 =
          2 + (pB.length + aB.length + mB.length + rB.length + sB.length) ∧
        pdu.getD 1 0 = pdu.length - 4 ∧
        (pdu.drop 4).take (pdu.length - 6) = pB ++ (aB ++ (mB ++ (rB ++ sB))) ∧
        check_tel pdu = true) ∧
    (∀ h pr rf pdu,
      createSetValuesPDU h pr rf = some pdu →
      ∃ aB rB,
        getBlockV createSetParametersAPDU pr = some aB ∧
        getBlockV createSetReferencesAPDU rf = some rB ∧
        pdu.getD 1 0 = 2 + (aB.length + rB.length) ∧
        pdu.getD 1 0 = pdu.length - 4 ∧
        (pdu.drop 4).take (pdu.length - 6) = aB ++ rB ∧
        check_tel pdu = true) ∧
    (∀ h cs pdu,
      createSetCommandsPDU h cs = some pdu →
      ∃ cB,
        createSetCommandsAPDU cs = some cB ∧
        pdu.getD 1 0 = 2 + cB.length ∧
        pdu.getD 1 0 = pdu.length - 4 ∧
        (pdu.drop 4).take (pdu.length - 6) = cB ∧
        check_tel pdu = true) := by
  refine ⟨?_, ?_, ?_⟩
  · intro klass h pd ms pr rf st pdu hp
    obtain ⟨pB, mB, aB, rB, sB, hpB, hmB, haB, hrB, hsB, hpdu⟩ :=
      createGetValuesPDU_shape klass h pd ms pr rf st pdu hp
    obtain ⟨g1, g2, g3, g4⟩ := pdu_frame_facts h.startDelimiter
      (2 + pB.length + mB.length + aB.length + rB.length + sB.length)
      h.destAddr h.sourceAddr (pB ++ (aB ++ (mB ++ (rB ++ sB))))
    rw [← hpdu] at g1 g2 g3 g4
    have hbody : (pB ++ (aB ++ (mB ++ (rB ++ sB)))).length =
        pB.length + aB.length + mB.length + rB.length + sB.length := by
      simp
      omega
    refine ⟨pB, mB, aB, rB, sB, hpB, hmB, haB, hrB, hsB, by rw [g1]; omega,
      by rw [g1]; omega, ?_, g4⟩
    rw [show pdu.length - 6 = (pB ++ (aB ++ (mB ++ (rB ++ sB)))).length by omega]
    exact g3
  · intro h pr rf pdu hp
    unfold createSetValuesPDU at hp
    obtain ⟨aB, haB, hp⟩ := Option.bind_eq_some.mp hp
    obtain ⟨rB, hrB, hp⟩ := Option.bind_eq_some.mp hp
    have hpdu := (Option.some.inj hp).symm
    rw [show [h.startDelimiter, 2 + aB.length + rB.length, h.destAddr,
        h.sourceAddr] ++ aB ++ rB = [h.startDelimiter, 2 + aB.length + rB.length,
        h.destAddr, h.sourceAddr] ++ (aB ++ rB) by simp] at hpdu
    obtain ⟨g1, g2, g3, g4⟩ := pdu_frame_facts h.startDelimiter
      (2 + aB.length + rB.length) h.destAddr h.sourceAddr (aB ++ rB)
    rw [← hpdu] at g1 g2 g3 g4
    have hbody : (aB ++ rB).length = aB.length + rB.length := by simp
    refine ⟨aB, rB, haB, hrB, by rw [g1]; omega, by rw [g1]; omega, ?_, g4⟩
    rw [show pdu.length - 6 = (aB ++ rB).length by omega]
    exact g3
  · intro h cs pdu hp
    unfold createSetCommandsPDU at hp
    obtain ⟨cB, hcB, hp⟩ := Option.bind_eq_some.mp hp
    have hpdu := (Option.some.inj hp).symm
    obtain ⟨g1, g2, g3, g4⟩ := pdu_frame_facts h.startDelimiter
      (2 + cB.length) h.destAddr h.sourceAddr cB
    rw [← hpdu] at g1 g2 g3 g4
    refine ⟨cB, hcB, by rw [g1], by rw [g1]; omega, ?_, g4⟩
    rw [show pdu.length - 6 = cB.length by omega]
    exact g3

/-- C5 witness: the three builders evaluated at concrete requests satisfy
the length-field, block-order and checksum properties. -/
theorem builders_length_field_and_block_order_witness :
    (∃ pdu, createGetValuesPDU 2 ⟨0x27, 0x20, 0x04⟩ ["buf_len"] ["h", "q"]
        ["unit_addr"] [] [] = some pdu ∧ pdu.getD 1 0 = pdu.length - 4) ∧
    (∃ pdu, createSetValuesPDU ⟨0x27, 0x20, 0x04⟩ [] [("ref", 50)] = some pdu ∧
        pdu.getD 1 0 = pdu.length - 4) ∧
    (∃ pdu, createSetCommandsPDU ⟨0x27, 0x20, 0x04⟩ ["REMOTE", "START"] = some pdu ∧
        pdu.getD 1 0 = pdu.length - 4) := by
  obtain ⟨t1, t2, t3⟩ := builders_length_field_and_block_order
  refine ⟨⟨_, rfl, ?_⟩, ⟨_, rfl, ?_⟩, ⟨_, rfl, ?_⟩⟩
  · obtain ⟨_, _, _, _, _, _, _, _, _, _, _, hlen, _, _⟩ :=
      t1 2 ⟨0x27, 0x20, 0x04⟩ ["buf_len"] ["h", "q"] ["unit_addr"] [] [] _ rfl
    exact hlen
  · obtain ⟨_, _, _, _, _, hlen, _, _⟩ :=
      t2 ⟨0x27, 0x20, 0x04⟩ [] [("ref", 50)] _ rfl
    exact hlen
  · obtain ⟨_, _, _, hlen, _, _⟩ :=
      t3 ⟨0x27, 0x20, 0x04⟩ ["REMOTE", "START"] _ rfl
    exact hlen

/-! ## Claim C6 -/

/-- C6: for the documented fixed addresses (destination `0xfe`, source
`0x01`), the connect-request builder reproduces the known-good byte
sequence `27 0e fe 01 00 02 02 03 04 02 2e 2f 02 02 94 95 a2 aa` exactly:
delimiter `0x27`, length `0x0e`, the three GET blocks for protocol data
`buf_len`/`unit_bus_mode`, parameters `unit_addr`/`group_addr` and
measurements `unit_family`/`unit_type`, and the checksum bytes `a2 aa`. -/
theorem connect_request_known_good_bytes :
    createConnectRequestPDU 0x01 =
      some [0x27, 0x0e, 0xfe, 0x01, 0x00, 0x02, 0x02, 0x03, 0x04, 0x02,
            0x2e, 0x2f, 0x02, 0x02, 0x94, 0x95, 0xa2, 0xaa] := by
  set_option maxRecDepth 4000 in decide

/-! ## Claim C10 -/

theorem and_63_eq_mod (l : Nat) : l &&& 63 = l % 64 := by
  apply Nat.eq_of_testBit_eq
  intro i
  rw [Nat.testBit_and, show (63 : Nat) = 2 ^ 6 - 1 by norm_num,
    Nat.testBit_two_pow_sub_one, show (64 : Nat) = 2 ^ 6 by norm_num,
    Nat.testBit_mod_two_pow, Bool.and_comm]

theorem opShift_or_small (op : Nat) (hop : op ≤ 3) :
    ∀ m, m < 64 → (op <<< 6) ||| m = 64 * op + m := by
  interval_cases op <;> decide

/-- Every per-pair byte list produced inside `createAPDU` has two bytes, so
the emitted value payload is twice the data-point count. -/
theorem createAPDU_pairs_length (klass : Nat) (dps : List (String × Nat)) :
    ∀ pairs, dps.mapM (fun dv => (lookupItem klass dv.1).map (fun i => [i, dv.2]))
        = some pairs → pairs.flatten.length = 2 * dps.length := by
  induction dps with
  | nil =>
    intro pairs hp
    cases Option.some.inj hp
    rfl
  | cons dv t ih =>
    intro pairs hp
    rw [List.mapM_cons] at hp
    obtain ⟨b, hb, hp⟩ := Option.bind_eq_some.mp hp
    obtain ⟨bs, hbs, hp⟩ := Option.bind_eq_some.mp hp
    cases Option.some.inj hp
    obtain ⟨i, _, hbv⟩ := Option.map_eq_some'.mp hb
    rw [← hbv]
    simp only [List.flatten_cons, List.length_append, List.length_cons,
      List.length_nil, ih bs hbs, List.length_cons]
    omega

/-- C10: the second APDU header byte is `(operation << 6) | (length & 0x3F)`:
its high two bits hold the operation, its low six bits hold the block's
value-payload length reduced modulo 64 — exact for payloads of at most 63
bytes, silently truncated (with the block still built, no error) beyond. -/
theorem apdu_header_byte_encoding (k op l : Nat) (hop : op ≤ 3) :
    (createAPDUHeader k op l).getD 1 0 / 64 = op ∧
    (createAPDUHeader k op l).getD 1 0 % 64 = l % 64 ∧
    (l ≤ 63 → (createAPDUHeader k op l).getD 1 0 % 64 = l) ∧
    (∀ dps blk, createAPDU k op dps = some blk →
      blk.length - 2 = 2 * dps.length ∧
      blk.getD 1 0 = (op <<< 6) ||| ((blk.length - 2) &&& 0x3F) ∧
      blk.getD 1 0 % 64 = (blk.length - 2) % 64 ∧
      blk.getD 1 0 / 64 = op) := by
  have hmlt : l &&& 63 < 64 := by
    have := Nat.and_le_right (n := l) (m := 63)
    omega
  have hhd : (createAPDUHeader k op l).getD 1 0 = 64 * op + l % 64 := by
    show (op <<< 6) ||| (l &&& 0x3F) = _
    rw [opShift_or_small op hop _ hmlt, and_63_eq_mod]
  refine ⟨by rw [hhd]; omega, by rw [hhd]; omega,
    fun hl => by rw [hhd]; omega, ?_⟩
  intro dps blk hblk
  unfold createAPDU at hblk
  rcases hmm : dps.mapM (fun dv => (lookupItem k dv.1).map (fun i => [i, dv.2]))
    with _ | pairs
  · rw [hmm] at hblk
    exact absurd hblk (by simp)
  · rw [hmm] at hblk
    have hfl := createAPDU_pairs_length k dps pairs hmm
    have hb := (Option.some.inj hblk).symm
    have hlen : blk.length = 2 + pairs.flatten.length := by
      rw [hb]
      simp [createAPDUHeader]
      omega
    have hsub : blk.length - 2 = 2 * dps.length := by omega
    have hgd : blk.getD 1 0 = (op <<< 6) ||| ((dps.length * 2) &&& 0x3F) := by
      rw [hb]
      rfl
    have hmlt2 : (dps.length * 2) &&& 63 < 64 := by
      have := Nat.and_le_right (n := dps.length * 2) (m := 63)
      omega
    refine ⟨hsub, ?_, ?_, ?_⟩
    · rw [hgd, hsub, show 2 * dps.length = dps.length * 2 by omega]
    · rw [hgd, hsub, opShift_or_small op hop _ hmlt2, and_63_eq_mod]
      omega
    · rw [hgd, opShift_or_small op hop _ hmlt2, and_63_eq_mod]
      omega

/-- C10 witness: a SET block with 33 data points has a 66-byte value
payload; the header byte records `66 % 64 = 2` with the block still built,
while a 2-byte payload is recorded exactly. -/
theorem apdu_header_byte_encoding_witness :
    (2 : Nat) ≤ 3 ∧
    (createAPDUHeader 5 2 66).getD 1 0 % 64 = 66 % 64 ∧
    (createAPDUHeader 5 2 2).getD 1 0 % 64 = 2 ∧
    (∃ blk, createAPDU 5 2 (List.replicate 33 ("ref", 0)) = some blk ∧
      blk.length - 2 = 66 ∧ blk.getD 1 0 % 64 = 2) := by
  refine ⟨by omega, (apdu_header_byte_encoding 5 2 66 (by omega)).2.1, ?_, ?_⟩
  · exact (apdu_header_byte_encoding 5 2 2 (by omega)).2.2.1 (by omega)
  · obtain ⟨blk, hblk⟩ : ∃ blk,
        createAPDU 5 2 (List.replicate 33 ("ref", 0)) = some blk := ⟨_, rfl⟩
    obtain ⟨h1, h2, h3, h4⟩ :=
      (apdu_header_byte_encoding 5 2 0 (by omega)).2.2.2
        (List.replicate 33 ("ref", 0)) blk hblk
    refine ⟨blk, hblk, ?_, ?_⟩
    · rw [h1]
      simp
    · rw [h3, h1]
      simp

/-! ## Claim C9 -/

/-- Raw positional assignment: each item receives the single raw byte at
consecutive offsets, with no width, scale or sign applied.  This is the
behaviour the parser actually implements. -/
def positionalVals : List (String × Nat) → List Nat → Nat → List (String × Nat)
  | [], _, _ => []
  | item :: restItems, data, offset =>
    (item.1, data.getD offset 0) :: positionalVals restItems data (offset + 1)

/-- Modelled from the spec: the catalog decoding rule of a measured data
point ("byte width, scale, signedness"; measured-data items may be 1 or 2
bytes on the real device).  The flow item `q` is modelled as a 2-byte
quantity; the remaining modelled items are 1 byte with identity scale. -/
def specItemWidth (name : String) : Nat :=
  if name = "q" then 2 else 1

/-- Modelled from the spec: decoding each expected data point through its
catalog rule — consume `width` bytes per item (big-endian) instead of
always one raw byte. -/
def specDecodeVals : List (String × Nat) → List Nat → Nat → List (String × Nat)
  | [], _, _ => []
  | item :: restItems, data, offset =>
    if offset + specItemWidth item.1 < data.length then
      (item.1,
        if specItemWidth item.1 = 2 then
          256 * data.getD offset 0 + data.getD (offset + 1) 0
        else data.getD offset 0) ::
        specDecodeVals restItems data (offset + specItemWidth item.1)
    else specDecodeVals restItems data offset

/-- A captured valid response frame with a six-byte body used to compare the
parser against the catalog decoding rules. -/
def frameFc : List Nat := [0x24, 0x06, 0x20, 0x04, 0x00, 0x01, 0x02, 0x03, 0x72, 0x2b]

/-- C9 counterexample: the parser does not decode data points through their
catalog decoding rule.  On the valid frame `frameFc` it assigns `q` the
single raw byte `1`, while the catalog rule for the two-byte item `q`
decodes `256 * 1 + 2 = 258`. -/
theorem parser_ignores_catalog_rule :
    check_tel frameFc = true ∧
    APDU.from_bytes frameFc =
      some [("h", 0), ("q", 1), ("speed", 2), ("p", 3), ("act_mode1", 0x72)] ∧
    APDU.get_value (fbLoop measuredDataItems frameFc 4) "q" = some 1 ∧
    (specDecodeVals measuredDataItems frameFc 4).lookup "q" = some 258 ∧
    (1 : Nat) ≠ 258 := by
  set_option maxRecDepth 4000 in
  refine ⟨by decide, by decide, by decide, by decide, by decide⟩

/-- C9 (amended): the parser assigns each expected measured-data item the
raw single byte at consecutive offsets from offset 4, ignoring the
catalog's width/scale/signedness, and the returned mapping omits entries
with no value rather than inserting a placeholder (every pair of a parsed
mapping comes from an actually decoded value). -/
theorem parser_positional_and_omits_missing :
    (∀ items data offset, offset + items.length < data.length →
      fbLoop items data offset = positionalVals items data offset) ∧
    (∀ resp m, parse_response resp = .ok m →
      ∀ p, p ∈ m → ∃ d, APDU.from_bytes resp = some d ∧
        ∃ q, q ∈ parseKeys ∧ q.1 = p.1 ∧ APDU.get_value d q.2 = some p.2) := by
  constructor
  · intro items
    induction items with
    | nil => intro data offset _; rfl
    | cons item rest ih =>
      intro data offset hfit
      have hlt : offset + 1 < data.length := by
        simp only [List.length_cons] at hfit
        omega
      unfold fbLoop positionalVals
      rw [if_pos hlt, ih data (offset + 1) (by simp only [List.length_cons] at hfit; omega)]
  · intro resp m hm p hp
    unfold parse_response at hm
    rcases hfb : APDU.from_bytes resp with _ | d
    · rw [hfb] at hm
      exact absurd hm (by simp)
    · rw [hfb] at hm
      have hmv : parseKeys.filterMap (fun q =>
          (APDU.get_value d q.2).map (fun v => (q.1, v))) = m :=
        Except.ok.inj hm
      rw [← hmv] at hp
      obtain ⟨q, hq, hqp⟩ := List.mem_filterMap.mp hp
      obtain ⟨v, hv, hvp⟩ := Option.map_eq_some'.mp hqp
      refine ⟨d, rfl, q, hq, ?_, ?_⟩
      · rw [← hvp]
      · rw [← hvp, hv]

/-- C9 witness: the positional characterization evaluated on a 20-byte
buffer, and the omission property applied to the parsed mapping of
`frameFc`. -/
theorem parser_positional_and_omits_missing_witness :
    fbLoop measuredDataItems (List.range 20) 4 =
      positionalVals measuredDataItems (List.range 20) 4 ∧
    (∃ d, APDU.from_bytes frameFc = some d ∧
      ∃ q, q ∈ parseKeys ∧ q.1 = "head" ∧ APDU.get_value d q.2 = some 0) := by
  refine ⟨parser_positional_and_omits_missing.1 measuredDataItems
    (List.range 20) 4 (by decide), ?_⟩
  obtain ⟨d, hd, q, hq, hq1, hq2⟩ := parser_positional_and_omits_missing.2 frameFc
    [("head", 0), ("flow", 1), ("speed", 2), ("power", 3), ("act_mode1", 0x72)]
    (by set_option maxRecDepth 9000 in rfl) ("head", 0) (by decide)
  exact ⟨d, hd, q, hq, hq1, hq2⟩

/-! ## Engine behaviour (claims C3, C4, C7, C8) -/

/-- Does an event write to the transport? -/
def isWriteEv : Ev → Bool
  | Ev.write _ => true
  | _ => false

/-- The transport events of one `_send_and_receive` exchange never touch
the engine lock (the lock is taken by the calling operation). -/
theorem sendAndReceive_no_lock_events (c : Bool) (p : List Nat)
    (d : DeviceBehaviour) :
    ∀ e, e ∈ (sendAndReceive c p d).2 → e ≠ Ev.lockAcq ∧ e ≠ Ev.lockRel := by
  intro e he
  unfold sendAndReceive at he
  cases c with
  | false => simp at he
  | true =>
    simp only [Bool.true_eq_false, if_false] at he
    cases d with
    | none =>
      simp only [List.mem_singleton] at he
      subst he
      exact ⟨fun h => Ev.noConfusion h, fun h => Ev.noConfusion h⟩
    | some s =>
      rcases hr : readFrame s with er | f <;> simp only [hr] at he <;>
        simp at he <;> rcases he with he | he <;> subst he <;>
        exact ⟨fun h => Ev.noConfusion h, fun h => Ev.noConfusion h⟩

/-- A connected exchange always begins with the frame write; the device
behaviour only decides what follows. -/
theorem sendAndReceive_writes_first (p : List Nat) (d : DeviceBehaviour)
    (hct : check_tel p = true) :
    ∃ rest, (sendAndReceive true p d).2 = Ev.write p :: rest := by
  unfold sendAndReceive
  simp only [Bool.true_eq_false, if_false, hct, if_true]
  cases d with
  | none => exact ⟨[], rfl⟩
  | some s =>
    rcases hr : readFrame s with er | f <;> simp only [hr] <;>
      exact ⟨[Ev.readEv], rfl⟩

/-! ## Claim C3 -/

/-- C3 (code bug): when the physical transport connect times out,
`connect` raises its connection failure through the dedicated
`asyncio.TimeoutError` handler, which — unlike the generic handler taken by
every other failure — does not clear `self._connection`: the engine is left
with the handle set (not Disconnected).  Every other failure path clears
the handle, and success leaves the engine Connected, as the claim states. -/
theorem connect_timeout_keeps_handle :
    connectEngine false true PhysOutcome.timeoutP none =
      ((true, some GBErr.connectionErr), []) ∧
    connectEngine false true PhysOutcome.errP none =
      ((false, some GBErr.connectionErr), [Ev.connClose]) ∧
    connectEngine false false PhysOutcome.okP none =
      ((false, some GBErr.connectionErr), []) ∧
    (connectEngine false true PhysOutcome.okP none).1 =
      (false, some GBErr.connectionErr) ∧
    (connectEngine false true PhysOutcome.okP (some frameF0)).1 = (true, none) := by
  refine ⟨rfl, rfl, rfl, ?_, ?_⟩
  · set_option maxRecDepth 9000 in rfl
  · set_option maxRecDepth 9000 in rfl

/-! ## Claim C4 -/

/-- C4 counterexample: a request/response exchange that times out waiting
for the device surfaces `ProtocolError`, not the distinct `TimeoutError`
class of the exceptions module — both in `_send_and_receive` ("Response
timeout") and through `poll_data`.  The claim that the surfaced failure is
a `TimeoutError` distinct from `ProtocolError` is false at this input. -/
theorem exchange_timeout_not_timeout_error :
    (sendAndReceive true frameF0 none).1 = .error GBErr.protoErr ∧
    (pollData true none).1 = .error GBErr.protoErr ∧
    GBErr.protoErr ≠ GBErr.timeoutErr := by
  refine ⟨?_, ?_, by decide⟩
  · set_option maxRecDepth 9000 in rfl
  · set_option maxRecDepth 9000 in rfl

/-- C4 (amended): every timed-out exchange is surfaced as `ProtocolError`
(the engine converts `asyncio.TimeoutError` into `ProtocolError` wherever a
response is awaited); the distinct `TimeoutError` kind of the exceptions
module exists but is never the surfaced failure on these paths. -/
theorem exchange_timeout_surfaces_protocol_error (pdu : List Nat) :
    (sendAndReceive true pdu none).1 = .error GBErr.protoErr ∧
    (pollData true none).1 = .error GBErr.protoErr ∧
    (startPump true none).1 = .error GBErr.protoErr ∧
    (stopPump true none).1 = .error GBErr.protoErr ∧
    GBErr.protoErr ≠ GBErr.timeoutErr := by
  refine ⟨rfl, ?_, ?_, ?_, by decide⟩ <;> set_option maxRecDepth 9000 in rfl

/-! ## Claim C7 -/

/-- The set-references request frame built for an in-range value. -/
def refPdu (v : Int) : List Nat :=
  append_tel [SD_DATA_REQUEST, 6, 0x20, 0x04, REFERENCE_VALUES, 0x82, 1, v.toNat]

/-- The set-values builder evaluated on the single `ref` data point. -/
theorem createSetValuesPDU_ref (n : Nat) :
    createSetValuesPDU ⟨SD_DATA_REQUEST, 0x20, 0x04⟩ [] [("ref", n)] =
      some (append_tel [SD_DATA_REQUEST, 6, 0x20, 0x04,
        REFERENCE_VALUES, 0x82, 1, n]) := by
  have hm : List.mapM (fun dv => (lookupItem REFERENCE_VALUES dv.1).map
      (fun i => [i, dv.2])) [("ref", n)] = some [[1, n]] := by
    simp [List.mapM, List.mapM.loop, lookupItem, dataitemsByClass,
      REFERENCE_VALUES, PROTOCOL_DATA, MEASURED_DATA, COMMANDS,
      CONFIGURATION_PARAMETERS, referenceValueItems, List.lookup]
  have hB : createAPDU REFERENCE_VALUES OP_SET [("ref", n)] =
      some [REFERENCE_VALUES, 0x82, 1, n] := by
    unfold createAPDU
    rw [hm]
    have hh : createAPDUHeader REFERENCE_VALUES OP_SET ([("ref", n)].length * 2) =
        [REFERENCE_VALUES, 0x82] := by
      show createAPDUHeader REFERENCE_VALUES OP_SET 2 = _
      decide
    rw [hh]
    rfl
  show (getBlockV createSetParametersAPDU []).bind _ = _
  have h1 : getBlockV createSetParametersAPDU ([] : List (String × Nat)) =
      some [] := rfl
  have h2 : getBlockV createSetReferencesAPDU [("ref", n)] =
      some [REFERENCE_VALUES, 0x82, 1, n] := by
    show createSetReferencesAPDU [("ref", n)] = _
    exact hB
  rw [h1, Option.some_bind, h2, Option.some_bind]
  rfl

/-- For an in-range value, `set_reference` builds the single-reference
set-values request and runs the locked exchange on it. -/
theorem setReference_inrange_shape (v : Int) (c : Bool) (dev : DeviceBehaviour)
    (h0 : 0 ≤ v) (h100 : v ≤ 100) :
    setReference v c dev =
      (match (sendAndReceive c (refPdu v) dev).1 with
       | .error _ => .error GBErr.protoErr
       | .ok resp => if resp.isEmpty then .error GBErr.protoErr else .ok (),
       Ev.lockAcq :: (sendAndReceive c (refPdu v) dev).2 ++ [Ev.lockRel]) := by
  have hin : ¬(v < 0 ∨ 100 < v) := by omega
  have hpdu : createSetValuesPDU ⟨SD_DATA_REQUEST, 0x20, 0x04⟩ []
      [("ref", v.toNat)] = some (refPdu v) := createSetValuesPDU_ref v.toNat
  unfold setReference
  rw [if_neg hin]
  simp only [hpdu]
  rcases hse : (sendAndReceive c (refPdu v) dev).1 with e | resp <;>
    simp only [hse]
  rcases hemp : resp.isEmpty <;> simp [hemp]

/-- C7: a value outside [0, 100] fails validation with the value error
before any transport I/O (the returned event trace is empty — nothing is
built, written or read, and the lock is not even taken); an in-range value
passes validation and the set-references exchange proceeds: the trace
starts with the lock and the frame write, and the surfaced result is never
the validation error. -/
theorem set_reference_range_validation (v : Int) (connected : Bool)
    (dev : DeviceBehaviour) :
    ((v < 0 ∨ 100 < v) →
      setReference v connected dev = (.error GBErr.valueErr, [])) ∧
    (0 ≤ v → v ≤ 100 →
      (∃ rest, (setReference v true dev).2 =
        Ev.lockAcq :: Ev.write (refPdu v) :: rest) ∧
      (setReference v connected dev).1 ≠ .error GBErr.valueErr) := by
  constructor
  · intro hout
    unfold setReference
    rw [if_pos hout]
  · intro h0 h100
    have hct : check_tel (refPdu v) = true := check_tel_append_tel _ (by simp)
    constructor
    · obtain ⟨rest, hrest⟩ := sendAndReceive_writes_first (refPdu v) dev hct
      rw [setReference_inrange_shape v true dev h0 h100]
      refine ⟨rest ++ [Ev.lockRel], ?_⟩
      show Ev.lockAcq :: (sendAndReceive true (refPdu v) dev).2 ++ [Ev.lockRel] = _
      rw [hrest]
      rfl
    · rw [setReference_inrange_shape v connected dev h0 h100]
      show (match (sendAndReceive connected (refPdu v) dev).1 with
        | Except.error _ => Except.error GBErr.protoErr
        | Except.ok resp => if resp.isEmpty then Except.error GBErr.protoErr
            else Except.ok ()) ≠ Except.error GBErr.valueErr
      rcases hse : (sendAndReceive connected (refPdu v) dev).1 with e | resp
      · exact fun hcon => GBErr.noConfusion (Except.error.inj hcon)
      · show (if resp.isEmpty = true then Except.error GBErr.protoErr
            else Except.ok ()) ≠ Except.error GBErr.valueErr
        rcases hemp : resp.isEmpty
        · exact fun hcon => Except.noConfusion hcon
        · exact fun hcon => GBErr.noConfusion (Except.error.inj hcon)

/-- C7 witness: value 150 is rejected with no I/O; value 50 proceeds to the
locked write. -/
theorem set_reference_range_validation_witness :
    setReference 150 true none = (.error GBErr.valueErr, []) ∧
    (∃ rest, (setReference 50 true none).2 =
      Ev.lockAcq :: Ev.write (refPdu 50) :: rest) := by
  refine ⟨(set_reference_range_validation 150 true none).1 (by omega), ?_⟩
  exact ((set_reference_range_validation 50 true none).2
    (by omega) (by omega)).1

/-! ## Claim C8 -/

/-- `poll_data` holds the engine lock around its whole
build/write/read/parse sequence: its event trace is bracketed by the lock
acquire and release. -/
theorem pollData_trace_bracketed (c : Bool) (dev : DeviceBehaviour) :
    ∃ mid, (pollData c dev).2 = Ev.lockAcq :: mid ++ [Ev.lockRel] := by
  unfold pollData
  rcases hpp : pollRequestPDU with _ | P <;> simp only [hpp]
  · exact ⟨[], rfl⟩
  · refine ⟨(sendAndReceive c P dev).2, ?_⟩
    split <;> first
      | rfl
      | (split <;> first
          | rfl
          | (split <;> rfl))

/-- `start_pump` holds the engine lock around its whole sequence. -/
theorem startPump_trace_bracketed (c : Bool) (dev : DeviceBehaviour) :
    ∃ mid, (startPump c dev).2 = Ev.lockAcq :: mid ++ [Ev.lockRel] := by
  unfold startPump
  rcases hpp : createSetCommandsPDU ⟨SD_DATA_REQUEST, 0x20, 0x04⟩
    ["REMOTE", "START"] with _ | P <;> simp only [hpp]
  · exact ⟨[], rfl⟩
  · refine ⟨(sendAndReceive c P dev).2, ?_⟩
    split <;> first
      | rfl
      | (split <;> rfl)

/-- `stop_pump` holds the engine lock around its whole sequence. -/
theorem stopPump_trace_bracketed (c : Bool) (dev : DeviceBehaviour) :
    ∃ mid, (stopPump c dev).2 = Ev.lockAcq :: mid ++ [Ev.lockRel] := by
  unfold stopPump
  rcases hpp : createSetCommandsPDU ⟨SD_DATA_REQUEST, 0x20, 0x04⟩
    ["STOP"] with _ | P <;> simp only [hpp]
  · exact ⟨[], rfl⟩
  · refine ⟨(sendAndReceive c P dev).2, ?_⟩
    split <;> first
      | rfl
      | (split <;> rfl)

/-- `connect` performs its whole transport sequence without ever touching
the engine lock. -/
theorem connect_no_lock_events (prev hostOk : Bool) (phys : PhysOutcome)
    (dev : DeviceBehaviour) :
    ∀ e, e ∈ (connectEngine prev hostOk phys dev).2 →
      e ≠ Ev.lockAcq ∧ e ≠ Ev.lockRel := by
  intro e he
  unfold connectEngine at he
  cases hostOk with
  | false =>
    simp only [if_true] at he
    cases prev <;> simp at he <;> try subst he
    · exact ⟨fun h => Ev.noConfusion h, fun h => Ev.noConfusion h⟩
  | true =>
    simp only [Bool.true_eq_false, if_false] at he
    cases phys with
    | timeoutP => simp at he
    | errP =>
      simp at he
      subst he
      exact ⟨fun h => Ev.noConfusion h, fun h => Ev.noConfusion h⟩
    | okP =>
      rcases hpp : createConnectRequestPDU 0x04 with _ | P <;>
        simp only [hpp] at he
      · simp at he
        rcases he with he | he <;> subst he <;>
          exact ⟨fun h => Ev.noConfusion h, fun h => Ev.noConfusion h⟩
      · have hsub : ∀ x, x ∈ (sendAndReceive true P dev).2 →
            x ≠ Ev.lockAcq ∧ x ≠ Ev.lockRel :=
          sendAndReceive_no_lock_events true P dev
        rcases hse : (sendAndReceive true P dev).1 with er | resp <;>
          simp only [hse] at he
        · simp at he
          rcases he with he | he | he
          · subst he
            exact ⟨fun h => Ev.noConfusion h, fun h => Ev.noConfusion h⟩
          · exact hsub e he
          · subst he
            exact ⟨fun h => Ev.noConfusion h, fun h => Ev.noConfusion h⟩
        · rcases hemp : resp.isEmpty <;> simp only [hemp, if_true, if_false] at he <;>
            simp at he
          · rcases he with he | he
            · subst he
              exact ⟨fun h => Ev.noConfusion h, fun h => Ev.noConfusion h⟩
            · exact hsub e he
          · rcases he with he | he | he
            · subst he
              exact ⟨fun h => Ev.noConfusion h, fun h => Ev.noConfusion h⟩
            · exact hsub e he
            · subst he
              exact ⟨fun h => Ev.noConfusion h, fun h => Ev.noConfusion h⟩

/-- C8 counterexample: `connect` — included by the claim in "every
operation" — performs its handshake write with no lock acquisition at all:
its event trace contains a transport write and no `lockAcq` event.  The
claim that every operation including connect/reconnect holds the
mutual-exclusion lock around its write/read sequence is therefore false. -/
theorem connect_writes_without_lock :
    ((connectEngine false true PhysOutcome.okP (some frameF0)).2.any
      isWriteEv) = true ∧
    ((connectEngine false true PhysOutcome.okP (some frameF0)).2.any
      (fun e => e == Ev.lockAcq)) = false := by
  constructor
  · set_option maxRecDepth 9000 in rfl
  · set_option maxRecDepth 9000 in rfl

/-- C8 (amended): the four data operations (`poll_data`, `start_pump`,
`stop_pump` and in-range `set_reference`) hold the engine lock around
their full build/write/read/parse sequence — their event traces are
bracketed by `lockAcq`/`lockRel` — so two such calls are serialized; but
`connect` (and hence `reconnect`) performs its exchange with no lock
events at all. -/
theorem data_operations_locked_connect_not (c : Bool) (dev : DeviceBehaviour)
    (v : Int) :
    (∃ mid, (pollData c dev).2 = Ev.lockAcq :: mid ++ [Ev.lockRel]) ∧
    (∃ mid, (startPump c dev).2 = Ev.lockAcq :: mid ++ [Ev.lockRel]) ∧
    (∃ mid, (stopPump c dev).2 = Ev.lockAcq :: mid ++ [Ev.lockRel]) ∧
    (0 ≤ v → v ≤ 100 →
      ∃ mid, (setReference v c dev).2 = Ev.lockAcq :: mid ++ [Ev.lockRel]) ∧
    (∀ prev hostOk phys, ∀ e, e ∈ (connectEngine prev hostOk phys dev).2 →
      e ≠ Ev.lockAcq ∧ e ≠ Ev.lockRel) := by
  refine ⟨pollData_trace_bracketed c dev, startPump_trace_bracketed c dev,
    stopPump_trace_bracketed c dev, ?_, fun prev hostOk phys =>
      connect_no_lock_events prev hostOk phys dev⟩
  intro h0 h100
  rw [setReference_inrange_shape v c dev h0 h100]
  exact ⟨(sendAndReceive c (refPdu v) dev).2, rfl⟩

/-- C8 witness: the lock bracketing applied to a concrete polling call and
an in-range reference write. -/
theorem data_operations_locked_connect_not_witness :
    (∃ mid, (pollData true none).2 = Ev.lockAcq :: mid ++ [Ev.lockRel]) ∧
    (∃ mid, (setReference 50 true none).2 =
      Ev.lockAcq :: mid ++ [Ev.lockRel]) := by
  refine ⟨(data_operations_locked_connect_not true none 50).1, ?_⟩
  exact (data_operations_locked_connect_not true none 50).2.2.2.1
    (by omega) (by omega)
